import Mathlib

/-!
Shallow embedding of the join-request approval bot (`src/app.py`): the
approval worker (`approve_single_request`), the queue processor
(`process_queue`), the enqueue path (`add_request_to_queue`) and the
broadcast engine (`handle_broadcast_message` / `copy_message_to_user`),
together with theorems settling the specification claims about them.

Transport calls (`approve_chat_join_request`, `send_photo`,
`send_message`, the Mongo operations) are modelled by outcome parameters:
`none` means the call returned normally, `some e` means it raised the
exception `e`.  Effects (sleeps, messages sent, statistics records, user
saves) are collected in explicit traces.
-/

/-- Exception classes that the transport layer of `app.py` can raise:
`FloodWait(w)`, `UserDeactivated`, `PeerIdInvalid`, `ChatAdminRequired`,
and any other exception (tagged with a code so distinct errors stay
distinct). -/
inductive Exc where
  | floodWait (w : Nat)
  | userDeactivated
  | peerIdInvalid
  | chatAdminRequired
  | other (code : Nat)
deriving DecidableEq, Repr

/-- Observable effects of one run of `approve_single_request`:
the rate-limit sleeps performed (in order), whether the promotional photo
and the confirmation message were delivered, the `update_stats` calls made
(approved flag and optional error), and whether `save_user` ran. -/
structure ApproveTrace where
  sleeps : List Nat
  photoSent : Bool
  confirmationSent : Bool
  statsCalls : List (Bool × Option Exc)
  userSaved : Bool
deriving DecidableEq, Repr

/-- How one invocation of `approve_single_request` ends: a normal Python
`return True` / `return False`, or an exception propagating to the caller. -/
inductive ApproveResult where
  | returned (b : Bool)
  | raised (e : Exc)
deriving DecidableEq, Repr

/-- The `try` block of `approve_single_request` (app.py lines 242-283):
approve, send the promotional photo, send the confirmation message,
`update_stats(approved=True)`, `save_user`, `return True`.  The first call
that raises aborts the block with the effects performed so far.
`update_stats` and `save_user` swallow their own exceptions internally, so
they never abort the block. -/
def tryBody (a1 photo msg : Option Exc) : ApproveTrace × Option Exc :=
  let t0 : ApproveTrace := ⟨[], false, false, [], false⟩
  match a1 with
  | some e => (t0, some e)
  | none =>
    match photo with
    | some e => (t0, some e)
    | none =>
      let t1 := { t0 with photoSent := true }
      match msg with
      | some e => (t1, some e)
      | none =>
        ({ t1 with confirmationSent := true,
                   statsCalls := [(true, none)], userSaved := true }, none)

/-- The `except` clauses of `approve_single_request` (app.py lines 285-315).
`FloodWait w`: sleep `w`, retry the approval once (`a2`); if the retry
returns normally, record stats approved and save the user and return
`True`; if it raises anything, that exception propagates.
`UserDeactivated` / `PeerIdInvalid` / `ChatAdminRequired` / generic:
record stats with the error and return `False`. -/
def handleExc (t : ApproveTrace) (e : Exc) (a2 : Option Exc) :
    ApproveTrace × ApproveResult :=
  match e with
  | .floodWait w =>
    let tw := { t with sleeps := t.sleeps ++ [w] }
    match a2 with
    | none =>
      ({ tw with statsCalls := tw.statsCalls ++ [(true, none)],
                 userSaved := true }, .returned true)
    | some e2 => (tw, .raised e2)
  | e => ({ t with statsCalls := t.statsCalls ++ [(false, some e)] },
          .returned false)

/-- Model of `approve_single_request` (app.py lines 238-315).  `a1` is the outcome
of the first `approve_chat_join_request` call, `a2` the outcome of the
retry performed after a `FloodWait` (unused when no `FloodWait` occurs),
`photo` and `msg` the outcomes of `send_photo` and `send_message`. -/
def approve_single_request (a1 a2 photo msg : Option Exc) :
    ApproveTrace × ApproveResult :=
  match tryBody a1 photo msg with
  | (t, none) => (t, .returned true)
  | (t, some e) => handleExc t e a2

/-- C5: per invocation of `approve_single_request` at most one rate-limit
sleep is performed; on a first attempt rate-limited with `w1` the worker
sleeps exactly `w1` and retries once, and a second rate-limit signal `w2`
on the retry is not slept on but propagates as the invocation's outcome. -/
theorem approval_worker_single_rate_limit_wait
    (a1 a2 photo msg : Option Exc) (w1 w2 : Nat) :
    (approve_single_request a1 a2 photo msg).1.sleeps.length ≤ 1 ∧
    (approve_single_request (some (.floodWait w1)) (some (.floodWait w2))
        photo msg).1.sleeps = [w1] ∧
    (approve_single_request (some (.floodWait w1)) (some (.floodWait w2))
        photo msg).2 = .raised (.floodWait w2) := by
  refine ⟨?_, rfl, rfl⟩
  rcases a1 with _ | e1
  · rcases photo with _ | ep
    · rcases msg with _ | em
      · simp [approve_single_request, tryBody]
      · rcases em with w | _ | _ | _ | c <;>
          rcases a2 with _ | e2 <;>
            simp [approve_single_request, tryBody, handleExc]
    · rcases ep with w | _ | _ | _ | c <;>
        rcases a2 with _ | e2 <;>
          simp [approve_single_request, tryBody, handleExc]
  · rcases e1 with w | _ | _ | _ | c <;>
      rcases a2 with _ | e2 <;>
        simp [approve_single_request, tryBody, handleExc]

/-- C3 counterexample: first attempt rate-limited (`FloodWait 2`), retry
succeeds.  The worker returns `True` and records stats approved, but does
NOT send the promotional photo nor the confirmation message, contradicting
the claim that the retry-success path performs the same success steps as
an immediately successful attempt. -/
theorem floodwait_retry_success_skips_messages_cex :
    (approve_single_request (some (.floodWait 2)) none none none).2
        = .returned true ∧
    (approve_single_request (some (.floodWait 2)) none none
        none).1.photoSent = false ∧
    (approve_single_request (some (.floodWait 2)) none none
        none).1.confirmationSent = false := by
  decide

/-- C3 amended: when the first approval attempt is rate-limited with `w`
and the single retry succeeds, the worker sleeps `w`, records statistics
with approved=true, saves the user and returns Success, but it does not
send the notification/promotional message nor the confirmation message. -/
theorem floodwait_retry_success_behaviour (w : Nat) (photo msg : Option Exc) :
    approve_single_request (some (.floodWait w)) none photo msg
      = (⟨[w], false, false, [(true, none)], true⟩, .returned true) :=
  rfl

/-- A document of the `requests_queue` Mongo collection (app.py lines
153-161 set the initial fields; the processor later sets `processed`,
`error`, `failed`, `approved_at`).  `id` models the unique Mongo `_id`. -/
structure WorkItem where
  id : Nat
  timestamp : Nat
  chat_id : Int
  user_id : Int
  user_first_name : String
  chat_title : String
  processed : Bool
  retries : Nat
  error : Option Exc
  failed : Bool
  approved_at : Option Nat
deriving DecidableEq, Repr

/-- Status of a work item in the sense of the spec data model: `failed`
set means Failed, otherwise `processed` set means Processed, otherwise
Pending. -/
inductive Status where
  | Pending
  | Processed
  | Failed
deriving DecidableEq, Repr

/-- Spec-level status of a stored document. -/
def statusOf (r : WorkItem) : Status :=
  if r.failed then .Failed else if r.processed then .Processed else .Pending

/-- Ordering used by the Mongo query `.sort("timestamp", 1)`. -/
def timestampLE (a b : WorkItem) : Prop := a.timestamp ≤ b.timestamp

instance : DecidableRel timestampLE := fun a b => Nat.decLe a.timestamp b.timestamp

instance : IsTotal WorkItem timestampLE := ⟨fun a b => Nat.le_total a.timestamp b.timestamp⟩

instance : IsTrans WorkItem timestampLE := ⟨fun _ _ _ => Nat.le_trans⟩

/-- The batch query of `process_queue` (app.py lines 179-181):
`find({"processed": False}).sort("timestamp", 1).limit(limit)`. -/
def fetchBatch (store : List WorkItem) (limit : Nat) : List WorkItem :=
  (List.insertionSort timestampLE (store.filter (fun r => !r.processed))).take limit

/-- Mongo `update_one({"_id": i}, ...)`: point update of the document with
the given id (`_id` carries a unique index, so at most one document
matches). -/
def updateById (store : List WorkItem) (i : Nat) (f : WorkItem → WorkItem) :
    List WorkItem :=
  store.map (fun r => if r.id = i then f r else r)

/-- Update of app.py lines 202-205: `$set {processed: True, approved_at: now}`. -/
def markProcessedDoc (now : Nat) (r : WorkItem) : WorkItem :=
  { r with processed := true, approved_at := some now }

/-- Update of app.py lines 213-222: `$set {processed: True, error: e, failed: True}`. -/
def markFailedDoc (e : Exc) (r : WorkItem) : WorkItem :=
  { r with processed := true, error := some e, failed := true }

/-- Update of app.py lines 226-229: `$inc {retries: 1}`. -/
def incRetriesDoc (r : WorkItem) : WorkItem :=
  { r with retries := r.retries + 1 }

/-- Transport behaviour for one item during one iteration: the outcomes the
external API would give to the worker's calls for that item. -/
structure ItemBehavior where
  a1 : Option Exc
  a2 : Option Exc
  photo : Option Exc
  msg : Option Exc
deriving DecidableEq, Repr

/-- The per-item body of the batch loop in `process_queue` (app.py lines
190-229): run `approve_single_request`; if it returns (either `True` or
`False`) mark the item processed; if it raises, compute
`retry_count = request.retries + 1` from the fetched document and either
mark the item failed (`retry_count >= 3`) or increment its retry counter. -/
def process_one (now : Nat) (env : Nat → ItemBehavior)
    (store : List WorkItem) (request : WorkItem) : List WorkItem :=
  let b := env request.id
  match (approve_single_request b.a1 b.a2 b.photo b.msg).2 with
  | .returned _ => updateById store request.id (markProcessedDoc now)
  | .raised e =>
    if request.retries + 1 ≥ 3 then
      updateById store request.id (markFailedDoc e)
    else
      updateById store request.id incRetriesDoc

/-- One iteration of the `while True` loop of `process_queue` (app.py
lines 176-232): fetch a batch of at most 10 pending items oldest first and
run the per-item body sequentially over it.  An empty batch performs no
store mutation (the code only sleeps). -/
def process_queue_step (now : Nat) (env : Nat → ItemBehavior)
    (store : List WorkItem) : List WorkItem :=
  (fetchBatch store 10).foldl (process_one now env) store

/-- The single store update that `process_one` applies to the document
whose id matches the fetched request. -/
def applyUpdate (now : Nat) (env : Nat → ItemBehavior) (request r : WorkItem) :
    WorkItem :=
  let b := env request.id
  match (approve_single_request b.a1 b.a2 b.photo b.msg).2 with
  | .returned _ => markProcessedDoc now r
  | .raised e =>
    if request.retries + 1 ≥ 3 then markFailedDoc e r else incRetriesDoc r

theorem applyUpdate_id (now : Nat) (env : Nat → ItemBehavior)
    (request r : WorkItem) : (applyUpdate now env request r).id = r.id := by
  simp only [applyUpdate]
  split
  · rfl
  · split <;> rfl

theorem updateById_length (store : List WorkItem) (i : Nat)
    (f : WorkItem → WorkItem) : (updateById store i f).length = store.length :=
  List.length_map store _

theorem process_one_length (now : Nat) (env : Nat → ItemBehavior)
    (store : List WorkItem) (request : WorkItem) :
    (process_one now env store request).length = store.length := by
  simp only [process_one]
  split
  · exact updateById_length store _ _
  · split <;> exact updateById_length store _ _

theorem foldl_process_one_length (now : Nat) (env : Nat → ItemBehavior)
    (batch : List WorkItem) : ∀ store : List WorkItem,
    (batch.foldl (process_one now env) store).length = store.length := by
  induction batch with
  | nil => intro store; rfl
  | cons request rest ih =>
    intro store
    simpa [List.foldl_cons, process_one_length] using
      ih (process_one now env store request)

/-- Placeholder document, used only as the fallback value of total
positional access into a store. -/
def noItem : WorkItem := ⟨0, 0, 0, 0, "", "", false, 0, none, false, none⟩

/-- Total positional access into a store. -/
def getItem (store : List WorkItem) (j : Nat) : WorkItem := store.getD j noItem

theorem getItem_map (f : WorkItem → WorkItem) (l : List WorkItem) (j : Nat)
    (hj : j < l.length) : getItem (l.map f) j = f (getItem l j) := by
  simp [getItem, List.getD_eq_getElem?_getD, List.getElem?_map,
        List.getElem?_eq_getElem hj]

theorem getItem_mem (store : List WorkItem) (j : Nat) (hj : j < store.length) :
    getItem store j ∈ store := by
  have h : getItem store j = store.get ⟨j, hj⟩ := by
    simp [getItem, List.getD_eq_getElem?_getD, List.getElem?_eq_getElem hj,
          List.get_eq_getElem]
  rw [h]
  exact List.get_mem store j hj

theorem updateById_getItem (store : List WorkItem) (i : Nat)
    (f : WorkItem → WorkItem) (j : Nat) (hj : j < store.length) :
    getItem (updateById store i f) j =
      if (getItem store j).id = i then f (getItem store j)
      else getItem store j :=
  getItem_map _ store j hj

theorem process_one_getItem (now : Nat) (env : Nat → ItemBehavior)
    (store : List WorkItem) (request : WorkItem) (j : Nat)
    (hj : j < store.length) :
    getItem (process_one now env store request) j =
      if (getItem store j).id = request.id then
        applyUpdate now env request (getItem store j)
      else getItem store j := by
  simp only [process_one, applyUpdate]
  split
  · exact updateById_getItem store request.id _ j hj
  · split
    · exact updateById_getItem store request.id _ j hj
    · exact updateById_getItem store request.id _ j hj

/-- Characterization of one batch pass: under unique ids, the document at
position `j` after the pass is the original document with at most one
update applied, namely the update for the batch request whose id matches;
documents matched by no batch request are untouched. -/
theorem foldl_process_one_getItem (now : Nat) (env : Nat → ItemBehavior) :
    ∀ (batch store : List WorkItem), (batch.map WorkItem.id).Nodup →
      ∀ (j : Nat), j < store.length →
      getItem (batch.foldl (process_one now env) store) j =
        match batch.find? (fun request => request.id == (getItem store j).id) with
        | some request => applyUpdate now env request (getItem store j)
        | none => getItem store j := by
  intro batch
  induction batch with
  | nil => intro store _ j _; rfl
  | cons request rest ih =>
    intro store hnd j hj
    rw [List.map_cons, List.nodup_cons] at hnd
    obtain ⟨hnotmem, hndrest⟩ := hnd
    have hj' : j < (process_one now env store request).length := by
      rw [process_one_length]; exact hj
    have hstep := process_one_getItem now env store request j hj
    rw [List.foldl_cons]
    by_cases hid : (getItem store j).id = request.id
    · rw [List.find?_cons_of_pos _ (by simp [hid])]
      have hupd : getItem (process_one now env store request) j
          = applyUpdate now env request (getItem store j) := by
        rw [hstep, if_pos hid]
      have hnone : rest.find? (fun r => r.id ==
          (getItem (process_one now env store request) j).id) = none := by
        rw [List.find?_eq_none]
        intro x hx hbeq
        apply hnotmem
        have hxid : x.id = request.id := by
          have := hbeq
          rw [hupd, applyUpdate_id, hid] at this
          simpa using this
        exact hxid ▸ List.mem_map_of_mem WorkItem.id hx
      have hrest := ih (process_one now env store request) hndrest j hj'
      rw [hrest, hnone]
      exact hupd
    · rw [List.find?_cons_of_neg _
        (by simp only [beq_iff_eq]; exact fun h => hid h.symm)]
      have hupd : getItem (process_one now env store request) j
          = getItem store j := by
        rw [hstep, if_neg hid]
      have hrest := ih (process_one now env store request) hndrest j hj'
      rw [hrest, hupd]

theorem getItem_eq_get (store : List WorkItem) (j : Nat)
    (hj : j < store.length) : getItem store j = store.get ⟨j, hj⟩ := by
  simp [getItem, List.getD_eq_getElem?_getD, List.getElem?_eq_getElem hj,
        List.get_eq_getElem]

theorem mem_getItem (store : List WorkItem) (r : WorkItem) (hr : r ∈ store) :
    ∃ j, ∃ hj : j < store.length, getItem store j = r := by
  obtain ⟨⟨j, hj⟩, h⟩ := List.mem_iff_get.mp hr
  exact ⟨j, hj, (getItem_eq_get store j hj).trans h⟩

theorem fetchBatch_mem (store : List WorkItem) (n : Nat) (r : WorkItem)
    (hr : r ∈ fetchBatch store n) : r ∈ store ∧ r.processed = false := by
  have h1 : r ∈ List.insertionSort timestampLE
      (store.filter (fun x => !x.processed)) :=
    (List.take_sublist n _).subset hr
  have h2 : r ∈ store.filter (fun x => !x.processed) :=
    (List.perm_insertionSort timestampLE _).mem_iff.mp h1
  have h3 := List.mem_filter.mp h2
  exact ⟨h3.1, by simpa using h3.2⟩

theorem fetchBatch_ids_nodup (store : List WorkItem) (n : Nat)
    (hnd : (store.map WorkItem.id).Nodup) :
    ((fetchBatch store n).map WorkItem.id).Nodup := by
  have hf : ((store.filter (fun x => !x.processed)).map WorkItem.id).Nodup :=
    (List.Sublist.map WorkItem.id (List.filter_sublist store)).nodup hnd
  have hs : ((List.insertionSort timestampLE
      (store.filter (fun x => !x.processed))).map WorkItem.id).Nodup :=
    (((List.perm_insertionSort timestampLE _).map WorkItem.id).nodup_iff).mpr hf
  rw [fetchBatch, List.map_take]
  exact (List.take_sublist n _).nodup hs

theorem id_inj_of_nodup (store : List WorkItem)
    (hnd : (store.map WorkItem.id).Nodup) {a b : WorkItem}
    (ha : a ∈ store) (hb : b ∈ store) (hab : a.id = b.id) : a = b :=
  List.inj_on_of_nodup_map hnd ha hb hab

theorem process_queue_step_length (now : Nat) (env : Nat → ItemBehavior)
    (store : List WorkItem) :
    (process_queue_step now env store).length = store.length :=
  foldl_process_one_length now env (fetchBatch store 10) store

/-- Per-position description of one processor iteration: a document is
either untouched, or it was pending and receives exactly the single update
determined by its own fetched copy. -/
theorem process_queue_step_getItem (now : Nat) (env : Nat → ItemBehavior)
    (store : List WorkItem) (hnd : (store.map WorkItem.id).Nodup)
    (j : Nat) (hj : j < store.length) :
    getItem (process_queue_step now env store) j = getItem store j ∨
    ((getItem store j).processed = false ∧
      getItem (process_queue_step now env store) j
        = applyUpdate now env (getItem store j) (getItem store j)) := by
  have hchar := foldl_process_one_getItem now env (fetchBatch store 10) store
    (fetchBatch_ids_nodup store 10 hnd) j hj
  rw [process_queue_step]
  rcases hfind : (fetchBatch store 10).find?
      (fun request => request.id == (getItem store j).id) with _ | request
  · rw [hchar, hfind]
    exact Or.inl rfl
  · have hmem := List.mem_of_find?_eq_some hfind
    have hpend := (fetchBatch_mem store 10 request hmem).2
    have hrs : request ∈ store := (fetchBatch_mem store 10 request hmem).1
    have hideq : request.id = (getItem store j).id := by
      simpa using List.find?_some hfind
    have heq : request = getItem store j :=
      id_inj_of_nodup store hnd hrs (getItem_mem store j hj) hideq
    right
    refine ⟨heq ▸ hpend, ?_⟩
    rw [hchar, hfind, heq]

theorem updateById_map_id (store : List WorkItem) (i : Nat)
    (f : WorkItem → WorkItem) (h : ∀ r, (f r).id = r.id) :
    (updateById store i f).map WorkItem.id = store.map WorkItem.id := by
  simp only [updateById, List.map_map]
  refine List.map_congr_left ?_
  intro r _
  by_cases hc : r.id = i <;> simp [Function.comp, hc, h]

theorem process_one_map_id (now : Nat) (env : Nat → ItemBehavior)
    (store : List WorkItem) (request : WorkItem) :
    (process_one now env store request).map WorkItem.id
      = store.map WorkItem.id := by
  simp only [process_one]
  split
  · exact updateById_map_id store _ _ (fun r => rfl)
  · split
    · exact updateById_map_id store _ _ (fun r => rfl)
    · exact updateById_map_id store _ _ (fun r => rfl)

theorem foldl_process_one_map_id (now : Nat) (env : Nat → ItemBehavior)
    (batch : List WorkItem) : ∀ store : List WorkItem,
    ((batch.foldl (process_one now env) store).map WorkItem.id
      = store.map WorkItem.id) := by
  induction batch with
  | nil => intro store; rfl
  | cons request rest ih =>
    intro store
    rw [List.foldl_cons, ih, process_one_map_id]

/-- C7: the batch query returns at most `n` documents, every returned
document is unprocessed (Pending), the result is sorted by enqueue
timestamp ascending, and an empty batch is a valid non-error outcome under
which the processor iteration performs no store mutation (idle). -/
theorem fetchBatch_bounded_pending_sorted (store : List WorkItem)
    (n now : Nat) (env : Nat → ItemBehavior) :
    (fetchBatch store n).length ≤ n ∧
    (∀ r ∈ fetchBatch store n, r.processed = false) ∧
    List.Sorted timestampLE (fetchBatch store n) ∧
    (fetchBatch store 10 = [] → process_queue_step now env store = store) := by
  refine ⟨?_, ?_, ?_, ?_⟩
  · simp only [fetchBatch, List.length_take]
    exact Nat.min_le_left _ _
  · intro r hr
    exact (fetchBatch_mem store n r hr).2
  · exact List.Pairwise.sublist (List.take_sublist n _)
      (List.sorted_insertionSort timestampLE _)
  · intro h
    rw [process_queue_step, h]
    rfl

/-- C7 witness: the guarantees instantiated on a concrete store. -/
theorem fetchBatch_bounded_pending_sorted_witness :
    (fetchBatch [⟨1, 3, 0, 0, "", "", false, 0, none, false, none⟩,
        ⟨2, 1, 0, 0, "", "", true, 0, none, false, none⟩,
        ⟨3, 2, 0, 0, "", "", false, 0, none, false, none⟩] 1).length ≤ 1 ∧
    (∀ r ∈ fetchBatch [⟨1, 3, 0, 0, "", "", false, 0, none, false, none⟩,
        ⟨2, 1, 0, 0, "", "", true, 0, none, false, none⟩,
        ⟨3, 2, 0, 0, "", "", false, 0, none, false, none⟩] 1,
      r.processed = false) ∧
    List.Sorted timestampLE
      (fetchBatch [⟨1, 3, 0, 0, "", "", false, 0, none, false, none⟩,
        ⟨2, 1, 0, 0, "", "", true, 0, none, false, none⟩,
        ⟨3, 2, 0, 0, "", "", false, 0, none, false, none⟩] 1) ∧
    (fetchBatch [⟨1, 3, 0, 0, "", "", false, 0, none, false, none⟩,
        ⟨2, 1, 0, 0, "", "", true, 0, none, false, none⟩,
        ⟨3, 2, 0, 0, "", "", false, 0, none, false, none⟩] 10 = [] →
      process_queue_step 0 (fun _ => ⟨none, none, none, none⟩)
        [⟨1, 3, 0, 0, "", "", false, 0, none, false, none⟩,
         ⟨2, 1, 0, 0, "", "", true, 0, none, false, none⟩,
         ⟨3, 2, 0, 0, "", "", false, 0, none, false, none⟩]
        = [⟨1, 3, 0, 0, "", "", false, 0, none, false, none⟩,
           ⟨2, 1, 0, 0, "", "", true, 0, none, false, none⟩,
           ⟨3, 2, 0, 0, "", "", false, 0, none, false, none⟩]) :=
  fetchBatch_bounded_pending_sorted _ 1 0 _

/-- C9: in one iteration of the queue-processor loop (unique document ids,
failed documents also carry the processed mark, as the processor itself
guarantees) no document is deleted, a document already in a terminal state
is not mutated, and every document moves only along Pending → Pending
(retry increment), Pending → Processed, or Pending → Failed. -/
theorem processor_allowed_transitions (now : Nat) (env : Nat → ItemBehavior)
    (store : List WorkItem) (hnd : (store.map WorkItem.id).Nodup)
    (hwf : ∀ r ∈ store, r.failed = true → r.processed = true) :
    ((process_queue_step now env store).map WorkItem.id
      = store.map WorkItem.id) ∧
    ∀ j : Nat, j < store.length →
      ((statusOf (getItem store j) ≠ Status.Pending →
        getItem (process_queue_step now env store) j = getItem store j) ∧
      (getItem (process_queue_step now env store) j = getItem store j ∨
       (statusOf (getItem store j) = Status.Pending ∧
        (getItem (process_queue_step now env store) j
           = markProcessedDoc now (getItem store j) ∨
         (∃ e, getItem (process_queue_step now env store) j
           = markFailedDoc e (getItem store j)) ∨
         getItem (process_queue_step now env store) j
           = incRetriesDoc (getItem store j))))) := by
  constructor
  · exact foldl_process_one_map_id now env (fetchBatch store 10) store
  · intro j hj
    rcases process_queue_step_getItem now env store hnd j hj with
      hsame | ⟨hpend, hupd⟩
    · exact ⟨fun _ => hsame, Or.inl hsame⟩
    · have hfail : (getItem store j).failed = false := by
        rcases hfb : (getItem store j).failed with _ | _
        · rfl
        · have := hwf (getItem store j) (getItem_mem store j hj) hfb
          rw [this] at hpend
          cases hpend
      have hstat : statusOf (getItem store j) = Status.Pending := by
        simp [statusOf, hfail, hpend]
      refine ⟨fun hc => absurd hstat hc, Or.inr ⟨hstat, ?_⟩⟩
      rw [hupd]
      simp only [applyUpdate]
      split
      · exact Or.inl rfl
      · split
        · exact Or.inr (Or.inl ⟨_, rfl⟩)
        · exact Or.inr (Or.inr rfl)

/-- A freshly enqueued document, as `add_request_to_queue` inserts it. -/
def pendingDoc : WorkItem :=
  ⟨1, 0, 100, 200, "u", "c", false, 0, none, false, none⟩

/-- Transport behaviour: first approval attempt raises `UserDeactivated`. -/
def envDeactivated : Nat → ItemBehavior :=
  fun _ => ⟨some .userDeactivated, none, none, none⟩

/-- Transport behaviour: first approval attempt raises `ChatAdminRequired`. -/
def envForbidden : Nat → ItemBehavior :=
  fun _ => ⟨some .chatAdminRequired, none, none, none⟩

/-- Transport behaviour: first approval attempt raises a generic error. -/
def envGeneric : Nat → ItemBehavior :=
  fun _ => ⟨some (.other 3), none, none, none⟩

/-- Transport behaviour: first attempt rate-limited, retry raises a
generic error — the only shape that makes `approve_single_request` raise
to `process_queue`. -/
def envFloodThenError : Nat → ItemBehavior :=
  fun _ => ⟨some (.floodWait 1), some (.other 7), none, none⟩

/-- C9 witness: the invariant instantiated on a one-document store whose
approval attempt fails with `UserDeactivated`. -/
theorem processor_allowed_transitions_witness :
    (([pendingDoc].map WorkItem.id).Nodup) ∧
    (∀ r ∈ [pendingDoc], r.failed = true → r.processed = true) ∧
    (((process_queue_step 5 envDeactivated [pendingDoc]).map WorkItem.id
      = [pendingDoc].map WorkItem.id) ∧
    ∀ j : Nat, j < [pendingDoc].length →
      ((statusOf (getItem [pendingDoc] j) ≠ Status.Pending →
        getItem (process_queue_step 5 envDeactivated [pendingDoc]) j
          = getItem [pendingDoc] j) ∧
      (getItem (process_queue_step 5 envDeactivated [pendingDoc]) j
          = getItem [pendingDoc] j ∨
       (statusOf (getItem [pendingDoc] j) = Status.Pending ∧
        (getItem (process_queue_step 5 envDeactivated [pendingDoc]) j
           = markProcessedDoc 5 (getItem [pendingDoc] j) ∨
         (∃ e, getItem (process_queue_step 5 envDeactivated [pendingDoc]) j
           = markFailedDoc e (getItem [pendingDoc] j)) ∨
         getItem (process_queue_step 5 envDeactivated [pendingDoc]) j
           = incRetriesDoc (getItem [pendingDoc] j)))))) :=
  ⟨by decide, by decide,
    processor_allowed_transitions 5 envDeactivated [pendingDoc]
      (by decide) (by decide)⟩

/-- C4 amended: after a processor iteration every still-Pending document
has `retries ≤ 2`, and a document that reaches Failed in this iteration
(via retry exhaustion, the only path that sets `failed`) has stored
`retries` exactly 2 = maxRetries - 1 at the Failed transition — the
exhausting attempt brings the computed `retry_count` to 3, but the
mark-failed update does not write the incremented counter back. -/
theorem retry_exhaustion_stored_retries (now : Nat) (env : Nat → ItemBehavior)
    (store : List WorkItem) (hnd : (store.map WorkItem.id).Nodup)
    (hinv : ∀ r ∈ store, r.processed = false → r.retries ≤ 2) :
    (∀ r ∈ process_queue_step now env store,
      r.processed = false → r.retries ≤ 2) ∧
    ∀ j : Nat, j < store.length →
      (getItem store j).failed = false →
      (getItem (process_queue_step now env store) j).failed = true →
      (getItem (process_queue_step now env store) j).retries = 2 := by
  constructor
  · intro r hr hp
    obtain ⟨j, hj', heq⟩ := mem_getItem _ r hr
    have hj : j < store.length := by
      rw [← process_queue_step_length now env store]
      exact hj'
    rcases process_queue_step_getItem now env store hnd j hj with
      hsame | ⟨hpend, hupd⟩
    · have hr2 : r = getItem store j := by rw [← heq, hsame]
      rw [hr2] at hp ⊢
      exact hinv _ (getItem_mem store j hj) hp
    · have hr2 : r = applyUpdate now env (getItem store j) (getItem store j) := by
        rw [← heq, hupd]
      rw [hr2] at hp ⊢
      rcases hres : (approve_single_request (env (getItem store j).id).a1
          (env (getItem store j).id).a2 (env (getItem store j).id).photo
          (env (getItem store j).id).msg).2 with b | e
      · simp only [applyUpdate, hres, markProcessedDoc] at hp
        exact absurd hp (by decide)
      · by_cases hc : (getItem store j).retries + 1 ≥ 3
        · simp only [applyUpdate, hres, if_pos hc, markFailedDoc] at hp
          exact absurd hp (by decide)
        · simp only [applyUpdate, hres, if_neg hc, incRetriesDoc]
          omega
  · intro j hj hof hnf
    rcases process_queue_step_getItem now env store hnd j hj with
      hsame | ⟨hpend, hupd⟩
    · rw [hsame] at hnf
      rw [hnf] at hof
      cases hof
    · rcases hres : (approve_single_request (env (getItem store j).id).a1
          (env (getItem store j).id).a2 (env (getItem store j).id).photo
          (env (getItem store j).id).msg).2 with b | e
      · rw [hupd] at hnf
        simp only [applyUpdate, hres, markProcessedDoc] at hnf
        rw [hnf] at hof
        cases hof
      · by_cases hc : (getItem store j).retries + 1 ≥ 3
        · rw [hupd]
          simp only [applyUpdate, hres, if_pos hc, markFailedDoc]
          have hle := hinv _ (getItem_mem store j hj) hpend
          omega
        · rw [hupd] at hnf
          simp only [applyUpdate, hres, if_neg hc, incRetriesDoc] at hnf
          rw [hnf] at hof
          cases hof

/-- Three processor iterations on a single fresh document whose approval
keeps raising (rate-limited first attempt, generic error on the retry):
retries go 0 → 1 → 2, then the third failure exhausts the policy. -/
def exhaustedRun : List WorkItem :=
  process_queue_step 3 envFloodThenError
    (process_queue_step 2 envFloodThenError
      (process_queue_step 1 envFloodThenError [pendingDoc]))

/-- The terminal form the document of `exhaustedRun` ends in: failed with
the last error recorded, `retries` still 2. -/
def exhaustedDoc : WorkItem :=
  ⟨1, 0, 100, 200, "u", "c", true, 2, some (.other 7), true, none⟩

/-- C4 counterexample: the document that reaches Failed via retry
exhaustion carries stored `retries` = 2, not 3: the mark-failed update
(app.py lines 213-222) sets `processed`/`error`/`failed` but never writes
the incremented `retry_count` back. -/
theorem retry_exhaustion_stored_retries_cex :
    exhaustedRun = [exhaustedDoc] ∧ exhaustedDoc.failed = true ∧
    ¬ ∀ r ∈ exhaustedRun, r.failed = true → r.retries = 3 := by
  decide

/-- A document one retryable failure away from exhaustion. -/
def nearlyExhaustedDoc : WorkItem :=
  ⟨1, 0, 100, 200, "u", "c", false, 2, none, false, none⟩

/-- C4 witness: the amended guarantee instantiated on a store holding one
document with `retries = 2` whose approval raises once more. -/
theorem retry_exhaustion_stored_retries_witness :
    (([nearlyExhaustedDoc].map WorkItem.id).Nodup) ∧
    (∀ r ∈ [nearlyExhaustedDoc], r.processed = false → r.retries ≤ 2) ∧
    ((∀ r ∈ process_queue_step 9 envFloodThenError [nearlyExhaustedDoc],
      r.processed = false → r.retries ≤ 2) ∧
    ∀ j : Nat, j < [nearlyExhaustedDoc].length →
      (getItem [nearlyExhaustedDoc] j).failed = false →
      (getItem (process_queue_step 9 envFloodThenError [nearlyExhaustedDoc])
        j).failed = true →
      (getItem (process_queue_step 9 envFloodThenError [nearlyExhaustedDoc])
        j).retries = 2) :=
  ⟨by decide, by decide,
    retry_exhaustion_stored_retries 9 envFloodThenError [nearlyExhaustedDoc]
      (by decide) (by decide)⟩

/-- The shape `pendingDoc` takes once the processor has run its
mark-as-processed update at time 5. -/
def processedDoc : WorkItem :=
  ⟨1, 0, 100, 200, "u", "c", true, 0, none, false, some 5⟩

/-- C1 (code bug): on a non-retryable error (`UserDeactivated`,
`PeerIdInvalid`, `ChatAdminRequired`) `approve_single_request` swallows
the exception and returns `False`; `process_queue` ignores the return
value and runs its mark-as-processed update, so the item ends Processed
(with an `approved_at` stamp), not Failed; the error is recorded only in
the statistics sink, never on the work item. -/
theorem nonretryable_error_marks_processed_not_failed :
    process_queue_step 5 envDeactivated [pendingDoc] = [processedDoc] ∧
    process_queue_step 5 envForbidden [pendingDoc] = [processedDoc] ∧
    statusOf processedDoc = Status.Processed ∧
    processedDoc.failed = false ∧ processedDoc.error = none ∧
    (approve_single_request (some .userDeactivated) none none
      none).1.statsCalls = [(false, some .userDeactivated)] ∧
    (approve_single_request (some .chatAdminRequired) none none
      none).1.statsCalls = [(false, some .chatAdminRequired)] := by
  decide

/-- C2 (code bug): on a generic (retryable-class) error on the first
approval attempt the worker returns `False` instead of raising, so
`process_queue` marks the item processed: `retries` stays 0 and the item
leaves Pending for Processed instead of being retried or failed. -/
theorem generic_error_marks_processed_not_retried :
    process_queue_step 5 envGeneric [pendingDoc] = [processedDoc] ∧
    (getItem (process_queue_step 5 envGeneric [pendingDoc]) 0).retries = 0 ∧
    statusOf (getItem (process_queue_step 5 envGeneric [pendingDoc]) 0)
      = Status.Processed ∧
    (approve_single_request (some (.other 3)) none none none).1.statsCalls
      = [(false, some (.other 3))] := by
  decide

/-- The document `add_request_to_queue` inserts (app.py lines 153-161):
Pending, `retries = 0`, current timestamp. -/
def enqueuedDoc (i now : Nat) (chat user : Int) (name title : String) :
    WorkItem :=
  ⟨i, now, chat, user, name, title, false, 0, none, false, none⟩

/-- Environment of one `add_request_to_queue` call: whether the
`requests_queue` handle is set (app.py lines 40-48 leave it `None` when
the startup MongoDB connection failed), the outcome of the `insert_one`
call, and the transport behaviour the fallback `approve_single_request`
would see. -/
structure EnqueueEnv where
  queueAvailable : Bool
  insertError : Option Exc
  fallbackBehavior : ItemBehavior
deriving DecidableEq, Repr

/-- Observable outcome of `add_request_to_queue`: the queue collection
after the call, and the `approve_single_request` runs performed as
fallback.  The function always returns normally to its caller: the insert
and the fallback are each wrapped in try/except that only logs. -/
structure EnqueueResult where
  queue : List WorkItem
  fallbackRuns : List (ApproveTrace × ApproveResult)
deriving DecidableEq, Repr

/-- Model of `add_request_to_queue` (app.py lines 144-169): if the queue collection
handle is unset, return immediately (no insert, no fallback); otherwise
insert the new Pending document; if the insert raises, perform exactly one
direct `approve_single_request` as fallback and swallow anything it
raises (log-and-drop). -/
def add_request_to_queue (env : EnqueueEnv) (store : List WorkItem)
    (i now : Nat) (chat user : Int) (name title : String) : EnqueueResult :=
  if env.queueAvailable = false then ⟨store, []⟩
  else
    match env.insertError with
    | none => ⟨store ++ [enqueuedDoc i now chat user name title], []⟩
    | some _ =>
      ⟨store, [approve_single_request env.fallbackBehavior.a1
        env.fallbackBehavior.a2 env.fallbackBehavior.photo
        env.fallbackBehavior.msg]⟩

/-- Number of approvals the external API grants during one
`approve_single_request` run with the given behaviour: the first call
approves unless it raises; after a rate limit the single retry approves
unless it raises. -/
def approvalsGranted (b : ItemBehavior) : Nat :=
  match b.a1 with
  | none => 1
  | some (.floodWait _) => match b.a2 with | none => 1 | some _ => 0
  | some _ => 0

/-- C8: with the queue collection available, `add_request_to_queue` never
propagates an insert failure: an insert success queues exactly one new
Pending document and runs no fallback, an insert failure queues nothing
and runs exactly one fallback `approve_single_request`; the subject is
never both queued and fallback-approved, and the fallback run grants at
most one approval. -/
theorem enqueue_failure_single_fallback (env : EnqueueEnv)
    (store : List WorkItem) (i now : Nat) (chat user : Int)
    (name title : String) (hq : env.queueAvailable = true) :
    (env.insertError = none →
      add_request_to_queue env store i now chat user name title
        = ⟨store ++ [enqueuedDoc i now chat user name title], []⟩) ∧
    (∀ e, env.insertError = some e →
      add_request_to_queue env store i now chat user name title
        = ⟨store, [approve_single_request env.fallbackBehavior.a1
            env.fallbackBehavior.a2 env.fallbackBehavior.photo
            env.fallbackBehavior.msg]⟩) ∧
    ((add_request_to_queue env store i now chat user
        name title).fallbackRuns.length ≤ 1) ∧
    (¬((add_request_to_queue env store i now chat user name title).queue
        ≠ store ∧
      (add_request_to_queue env store i now chat user name title).fallbackRuns
        ≠ [])) ∧
    approvalsGranted env.fallbackBehavior ≤ 1 := by
  have hq2 : (env.queueAvailable = false) = False := by simp [hq]
  refine ⟨?_, ?_, ?_, ?_, ?_⟩
  · intro hins
    simp [add_request_to_queue, hq2, hins]
  · intro e hins
    simp [add_request_to_queue, hq2, hins]
  · rcases hins : env.insertError with _ | e <;>
      simp [add_request_to_queue, hq2, hins]
  · rcases hins : env.insertError with _ | e <;>
      simp [add_request_to_queue, hq2, hins]
  · rcases ha1 : env.fallbackBehavior.a1 with _ | e1
    · simp [approvalsGranted, ha1]
    · rcases e1 with w | _ | _ | _ | c <;>
        rcases ha2 : env.fallbackBehavior.a2 with _ | e2 <;>
          simp [approvalsGranted, ha1, ha2]

/-- C8 witness: the guarantees instantiated on a failing insert with a
clean fallback. -/
theorem enqueue_failure_single_fallback_witness :
    ((EnqueueEnv.mk true (some (.other 1))
        ⟨none, none, none, none⟩).queueAvailable = true) ∧
    (((EnqueueEnv.mk true (some (.other 1))
        ⟨none, none, none, none⟩).insertError = none →
      add_request_to_queue (EnqueueEnv.mk true (some (.other 1))
          ⟨none, none, none, none⟩) [] 7 4 1 2 "a" "b"
        = ⟨[] ++ [enqueuedDoc 7 4 1 2 "a" "b"], []⟩) ∧
    (∀ e, (EnqueueEnv.mk true (some (.other 1))
        ⟨none, none, none, none⟩).insertError = some e →
      add_request_to_queue (EnqueueEnv.mk true (some (.other 1))
          ⟨none, none, none, none⟩) [] 7 4 1 2 "a" "b"
        = ⟨[], [approve_single_request (EnqueueEnv.mk true (some (.other 1))
            ⟨none, none, none, none⟩).fallbackBehavior.a1
            (EnqueueEnv.mk true (some (.other 1))
            ⟨none, none, none, none⟩).fallbackBehavior.a2
            (EnqueueEnv.mk true (some (.other 1))
            ⟨none, none, none, none⟩).fallbackBehavior.photo
            (EnqueueEnv.mk true (some (.other 1))
            ⟨none, none, none, none⟩).fallbackBehavior.msg]⟩) ∧
    ((add_request_to_queue (EnqueueEnv.mk true (some (.other 1))
        ⟨none, none, none, none⟩) [] 7 4 1 2 "a" "b").fallbackRuns.length
      ≤ 1) ∧
    (¬((add_request_to_queue (EnqueueEnv.mk true (some (.other 1))
        ⟨none, none, none, none⟩) [] 7 4 1 2 "a" "b").queue ≠ [] ∧
      (add_request_to_queue (EnqueueEnv.mk true (some (.other 1))
        ⟨none, none, none, none⟩) [] 7 4 1 2 "a" "b").fallbackRuns ≠ [])) ∧
    approvalsGranted (EnqueueEnv.mk true (some (.other 1))
        ⟨none, none, none, none⟩).fallbackBehavior ≤ 1) :=
  ⟨by decide, enqueue_failure_single_fallback
    (EnqueueEnv.mk true (some (.other 1)) ⟨none, none, none, none⟩)
    [] 7 4 1 2 "a" "b" (by decide)⟩

/-- C10: with the queue collection handle unset (the startup DB connection
failed), `add_request_to_queue` returns at once: no document is inserted
and no fallback approval is attempted — the join event is silently
dropped. -/
theorem db_unavailable_drops_event (ie : Option Exc) (b : ItemBehavior)
    (store : List WorkItem) (i now : Nat) (chat user : Int)
    (name title : String) :
    add_request_to_queue ⟨false, ie, b⟩ store i now chat user name title
      = ⟨store, []⟩ :=
  rfl

/-- Outcome of one `copy` attempt to one broadcast recipient: delivered,
rate-limit signal `FloodWait w`, or another error. -/
inductive SendOutcome where
  | ok
  | floodWait (w : Nat)
  | err (code : Nat)
deriving DecidableEq, Repr

/-- Model of `copy_message_to_user` (app.py lines 722-736) run on the stream of
attempt outcomes the transport holds for one recipient: success returns
`True`, a non-rate-limit error is logged and returns `False`, and a
rate-limit signal sleeps the signalled duration and calls itself again for
the same recipient.  The result carries the sleeps performed before the
resolving attempt; a stream that never resolves (only rate-limit signals)
has no result (`none` — the real recursion would not terminate). -/
def copy_message_to_user : List SendOutcome → Option (Bool × List Nat)
  | [] => none
  | .ok :: _ => some (true, [])
  | .err _ :: _ => some (false, [])
  | .floodWait w :: rest =>
    match copy_message_to_user rest with
    | none => none
    | some (b, ws) => some (b, w :: ws)

/-- The `users[i:i+chunk_size]` slicing loop of `handle_broadcast_message`
(app.py lines 497-500), with the list length as structural fuel (the fuel
never runs out when it starts at the list's length). -/
def chunksFuel : Nat → List Int → List (List Int)
  | _, [] => []
  | 0, _ :: _ => []
  | fuel + 1, u :: rest => ((u :: rest).take 20) :: chunksFuel fuel ((u :: rest).drop 20)

/-- The chunked view of the recipient list, `chunk_size = 20`. -/
def chunkList20 (users : List Int) : List (List Int) :=
  chunksFuel users.length users

/-- The inner per-user loop of `handle_broadcast_message` (app.py lines
502-508): run `copy_message_to_user` for each user and increment the
successful or failed counter; `none` when some recipient never resolves.
The periodic progress edits (lines 510-523) are fire-and-forget, swallow
their own failures and touch no counter, so they have no observable
effect here. -/
def broadcastUsers (env : Int → List SendOutcome) :
    List Int → Nat → Nat → Option (Nat × Nat)
  | [], s, f => some (s, f)
  | u :: rest, s, f =>
    match copy_message_to_user (env u) with
    | none => none
    | some (true, _) => broadcastUsers env rest (s + 1) f
    | some (false, _) => broadcastUsers env rest s (f + 1)

/-- The outer per-chunk loop of `handle_broadcast_message`. -/
def broadcastChunks (env : Int → List SendOutcome) :
    List (List Int) → Nat → Nat → Option (Nat × Nat)
  | [], s, f => some (s, f)
  | c :: cs, s, f =>
    match broadcastUsers env c s f with
    | none => none
    | some (s2, f2) => broadcastChunks env cs s2 f2

/-- Model of `handle_broadcast_message` (app.py lines 479-537): fetch the recipient
list once at invocation start, loop over it in 20-sized chunks counting
successes and failures, and report `(total, successful, failed)`. -/
def handle_broadcast_message (env : Int → List SendOutcome)
    (users : List Int) : Option (Nat × Nat × Nat) :=
  (broadcastChunks env (chunkList20 users) 0 0).map
    (fun p => (users.length, p.1, p.2))

/-- The recipient is counted successful: its stream resolves with `ok`. -/
def deliverySucceeds (env : Int → List SendOutcome) (u : Int) : Bool :=
  match copy_message_to_user (env u) with
  | some (true, _) => true
  | _ => false

/-- The recipient is counted failed: its stream resolves with a
non-rate-limit error. -/
def deliveryFails (env : Int → List SendOutcome) (u : Int) : Bool :=
  match copy_message_to_user (env u) with
  | some (false, _) => true
  | _ => false

theorem chunksFuel_flatten : ∀ (fuel : Nat) (l : List Int),
    l.length ≤ fuel → (chunksFuel fuel l).flatten = l := by
  intro fuel
  induction fuel with
  | zero =>
    intro l hl
    cases l with
    | nil => rfl
    | cons u rest => simp at hl
  | succ fuel ih =>
    intro l hl
    cases l with
    | nil => rfl
    | cons u rest =>
      have hd : ((u :: rest).drop 20).length ≤ fuel := by
        simp only [List.length_drop, List.length_cons]
        simp only [List.length_cons] at hl
        omega
      simp only [chunksFuel, List.flatten_cons]
      rw [ih _ hd, List.take_append_drop]

theorem chunkList20_flatten (users : List Int) :
    (chunkList20 users).flatten = users :=
  chunksFuel_flatten users.length users (Nat.le_refl _)

theorem broadcastUsers_append (env : Int → List SendOutcome)
    (l1 : List Int) : ∀ (l2 : List Int) (s f : Nat),
    broadcastUsers env (l1 ++ l2) s f =
      match broadcastUsers env l1 s f with
      | none => none
      | some (s2, f2) => broadcastUsers env l2 s2 f2 := by
  induction l1 with
  | nil => intro l2 s f; rfl
  | cons u rest ih =>
    intro l2 s f
    simp only [List.cons_append, broadcastUsers]
    rcases copy_message_to_user (env u) with _ | ⟨_ | _, ws⟩
    · rfl
    · exact ih l2 s (f + 1)
    · exact ih l2 (s + 1) f

theorem broadcastChunks_flatten (env : Int → List SendOutcome)
    (cs : List (List Int)) : ∀ (s f : Nat),
    broadcastChunks env cs s f = broadcastUsers env cs.flatten s f := by
  induction cs with
  | nil => intro s f; rfl
  | cons c rest ih =>
    intro s f
    simp only [broadcastChunks, List.flatten_cons, broadcastUsers_append]
    rcases hbc : broadcastUsers env c s f with _ | ⟨s2, f2⟩ <;>
      simp only [hbc]
    exact ih s2 f2

theorem broadcastUsers_counts (env : Int → List SendOutcome) :
    ∀ (users : List Int) (s f : Nat),
    (∀ u ∈ users, (copy_message_to_user (env u)).isSome = true) →
    broadcastUsers env users s f
      = some (s + (users.filter (deliverySucceeds env)).length,
              f + (users.filter (deliveryFails env)).length) := by
  intro users
  induction users with
  | nil => intro s f _; simp [broadcastUsers]
  | cons u rest ih =>
    intro s f h
    have hu := h u (List.mem_cons_self u rest)
    have hrest : ∀ x ∈ rest, (copy_message_to_user (env x)).isSome = true :=
      fun x hx => h x (List.mem_cons_of_mem u hx)
    rcases hc : copy_message_to_user (env u) with _ | ⟨b, ws⟩
    · rw [hc] at hu
      cases hu
    · cases b
      · have hs : deliverySucceeds env u = false := by
          simp [deliverySucceeds, hc]
        have hf : deliveryFails env u = true := by
          simp [deliveryFails, hc]
        have hstep : broadcastUsers env (u :: rest) s f
            = broadcastUsers env rest s (f + 1) := by
          simp [broadcastUsers, hc]
        rw [hstep, ih s (f + 1) hrest]
        simp [List.filter_cons, hs, hf, Option.some.injEq,
          Prod.mk.injEq] <;> omega
      · have hs : deliverySucceeds env u = true := by
          simp [deliverySucceeds, hc]
        have hf : deliveryFails env u = false := by
          simp [deliveryFails, hc]
        have hstep : broadcastUsers env (u :: rest) s f
            = broadcastUsers env rest (s + 1) f := by
          simp [broadcastUsers, hc]
        rw [hstep, ih (s + 1) f hrest]
        simp [List.filter_cons, hs, hf, Option.some.injEq,
          Prod.mk.injEq] <;> omega

theorem copy_resolves_ok (ws : List Nat) : ∀ rest : List SendOutcome,
    copy_message_to_user (ws.map SendOutcome.floodWait
      ++ SendOutcome.ok :: rest) = some (true, ws) := by
  induction ws with
  | nil => intro rest; rfl
  | cons w ws ih =>
    intro rest
    simp only [List.map_cons, List.cons_append, copy_message_to_user,
      List.append_eq, ih]

theorem copy_resolves_err (ws : List Nat) :
    ∀ (c : Nat) (rest : List SendOutcome),
    copy_message_to_user (ws.map SendOutcome.floodWait
      ++ SendOutcome.err c :: rest) = some (false, ws) := by
  induction ws with
  | nil => intro c rest; rfl
  | cons w ws ih =>
    intro c rest
    simp only [List.map_cons, List.cons_append, copy_message_to_user,
      List.append_eq, ih]

theorem resolved_partition (env : Int → List SendOutcome) :
    ∀ users : List Int,
    (∀ u ∈ users, (copy_message_to_user (env u)).isSome = true) →
    (users.filter (deliverySucceeds env)).length
      + (users.filter (deliveryFails env)).length = users.length := by
  intro users
  induction users with
  | nil => intro _; rfl
  | cons u rest ih =>
    intro h
    have hu := h u (List.mem_cons_self u rest)
    have hrest : ∀ x ∈ rest, (copy_message_to_user (env x)).isSome = true :=
      fun x hx => h x (List.mem_cons_of_mem u hx)
    have hlen := ih hrest
    rcases hc : copy_message_to_user (env u) with _ | ⟨b, ws⟩
    · rw [hc] at hu
      cases hu
    · cases b
      · have hs : deliverySucceeds env u = false := by
          simp [deliverySucceeds, hc]
        have hf : deliveryFails env u = true := by
          simp [deliveryFails, hc]
        simp [List.filter_cons, hs, hf] <;> omega
      · have hs : deliverySucceeds env u = true := by
          simp [deliverySucceeds, hc]
        have hf : deliveryFails env u = false := by
          simp [deliveryFails, hc]
        simp [List.filter_cons, hs, hf] <;> omega

/-- C6: with the recipient list fetched once at invocation start, whenever
every recipient's delivery stream resolves (finitely many rate-limit
signals, then an `ok` or a non-rate-limit error), the broadcast returns
counters `(total, successful, failed)` with successful + failed = total
and `failed` counting exactly the recipients whose delivery ends with a
non-rate-limit error; a rate-limited delivery is retried for the same
recipient after sleeping exactly the signalled durations until it
resolves, and each recipient is counted once before the run moves on. -/
theorem broadcast_counters (env : Int → List SendOutcome)
    (users : List Int)
    (h : ∀ u ∈ users, (copy_message_to_user (env u)).isSome = true) :
    handle_broadcast_message env users
      = some (users.length, (users.filter (deliverySucceeds env)).length,
          (users.filter (deliveryFails env)).length) ∧
    (users.filter (deliverySucceeds env)).length
      + (users.filter (deliveryFails env)).length = users.length ∧
    (∀ (ws : List Nat) (rest : List SendOutcome),
      copy_message_to_user (ws.map SendOutcome.floodWait
        ++ SendOutcome.ok :: rest) = some (true, ws)) ∧
    (∀ (ws : List Nat) (c : Nat) (rest : List SendOutcome),
      copy_message_to_user (ws.map SendOutcome.floodWait
        ++ SendOutcome.err c :: rest) = some (false, ws)) := by
  refine ⟨?_, resolved_partition env users h, copy_resolves_ok,
    copy_resolves_err⟩
  rw [handle_broadcast_message, broadcastChunks_flatten, chunkList20_flatten,
    broadcastUsers_counts env users 0 0 h]
  simp

/-- Delivery streams for the C6 witness: recipient 1 is rate-limited once
then delivered, recipient 2 fails with a non-rate-limit error, recipient 3
is delivered at once. -/
def envBroadcast : Int → List SendOutcome :=
  fun u => if u = 1 then [.floodWait 2, .ok]
    else if u = 2 then [.err 0] else [.ok]

/-- C6 witness: the counters on three concrete recipients. -/
theorem broadcast_counters_witness :
    (∀ u ∈ ([1, 2, 3] : List Int),
      (copy_message_to_user (envBroadcast u)).isSome = true) ∧
    (handle_broadcast_message envBroadcast [1, 2, 3]
      = some (([1, 2, 3] : List Int).length,
          (([1, 2, 3] : List Int).filter
            (deliverySucceeds envBroadcast)).length,
          (([1, 2, 3] : List Int).filter (deliveryFails envBroadcast)).length) ∧
    (([1, 2, 3] : List Int).filter (deliverySucceeds envBroadcast)).length
      + (([1, 2, 3] : List Int).filter (deliveryFails envBroadcast)).length
      = ([1, 2, 3] : List Int).length ∧
    (∀ (ws : List Nat) (rest : List SendOutcome),
      copy_message_to_user (ws.map SendOutcome.floodWait
        ++ SendOutcome.ok :: rest) = some (true, ws)) ∧
    (∀ (ws : List Nat) (c : Nat) (rest : List SendOutcome),
      copy_message_to_user (ws.map SendOutcome.floodWait
        ++ SendOutcome.err c :: rest) = some (false, ws))) :=
  ⟨by decide, broadcast_counters envBroadcast [1, 2, 3] (by decide)⟩
